import Mathlib

/-!
# Verification of the tokens.net ccxt connector (`src/js/tokens.js`)

A shallow embedding of the connector's normalization core.  JavaScript
numbers are modelled as exact rationals (`Rat`); a numeric field that is
absent — and a numeric result that is not finite (`NaN`) — is encoded as
`none`.  Raw JSON payloads are modelled as structures carrying exactly the
fields the connector reads.  Helpers that live in the shared base framework
(outside this repository fragment) are either abstract function parameters
or are modelled from the specification, as marked in their doc comments.
-/

namespace Tokens

/-- Decimal-digit accumulator used by `parseFloat`:
the number denoted by a list of decimal digit characters. -/
def digitsToNat (cs : List Char) : Nat :=
  cs.foldl (fun a c => a * 10 + (c.toNat - 48)) 0

/-- Shallow model of JavaScript `parseFloat` on plain decimal strings: an
optional sign, integer digits, an optional fractional part after a dot.  A
string with no digits in either part parses to `NaN`, encoded as `none`.
(Exponent notation does not occur in this connector's inputs and is not
modelled.) -/
def parseFloat (s : String) : Option Rat :=
  let cs := s.toList
  let signed : Rat × List Char :=
    match cs with
    | '-' :: t => (-1, t)
    | '+' :: t => (1, t)
    | _ => (1, cs)
  let intDigits := signed.2.takeWhile Char.isDigit
  let rest := signed.2.dropWhile Char.isDigit
  let fracDigits :=
    match rest with
    | '.' :: t => t.takeWhile Char.isDigit
    | _ => []
  if intDigits.isEmpty && fracDigits.isEmpty then none
  else some (signed.1 * ((digitsToNat intDigits : Rat) +
    (digitsToNat fracDigits : Rat) / (10 : Rat) ^ fracDigits.length))

/-- JavaScript `String.prototype.split` with a one-character separator,
on the character list (structurally recursive so that concrete instances
evaluate; the connector only ever splits on "/" and " "). -/
def splitCharAux (sep : Char) : List Char → List (List Char)
  | [] => [[]]
  | c :: cs =>
    match splitCharAux sep cs with
    | [] => [[]]
    | w :: ws => if c = sep then [] :: w :: ws else (c :: w) :: ws

/-- JavaScript `String.prototype.split` with a one-character separator. -/
def splitChar (sep : Char) (s : String) : List String :=
  (splitCharAux sep s.data).map String.mk

/-- JavaScript `toLowerCase`, character-wise. -/
def lowerStr (s : String) : String :=
  String.mk (s.data.map Char.toLower)

/-- A raw trading-pair record as returned by the exchange's
`public/trading-pairs/get/all/` endpoint, carrying exactly the fields
`fetchMarkets` reads (`tokens.js` 169-217).  The decimal-place counts arrive
as non-negative JSON integers. -/
structure RawPair where
  title : String
  priceDecimals : Nat
  amountDecimals : Nat
  minAmount : String
  trading : String
deriving Repr, DecidableEq

/-- The `precision` object of a canonical market record. -/
structure Precision where
  amount : Nat
  price : Nat
deriving Repr, DecidableEq

/-- A min/max pair inside `limits`; `undefined` and `NaN` are `none`. -/
structure MinMax where
  min : Option Rat
  max : Option Rat
deriving Repr, DecidableEq

/-- The `limits` object of a canonical market record. -/
structure Limits where
  amount : MinMax
  price : MinMax
  cost : MinMax
deriving Repr, DecidableEq

/-- A canonical market record as built by `fetchMarkets` (`tokens.js`
189-214). -/
structure Market where
  id : String
  symbol : String
  base : String
  quote : String
  baseId : String
  quoteId : String
  symbolId : String
  info : RawPair
  active : Bool
  precision : Precision
  limits : Limits
deriving Repr, DecidableEq

/-- One iteration of the `fetchMarkets` loop (`tokens.js` 173-215): build a
canonical market record from one raw pair record.  JavaScript's
`Math.pow (10, -p)` is the exact rational `1 / 10 ^ p` in this model.  When
the title contains no slash the destructured `quote` is undefined and
`quote.toLowerCase ()` throws a TypeError; that abort is encoded as
`none`. -/
def buildMarket (market : RawPair) : Option Market :=
  match splitChar '/' market.title with
  | base :: quote :: _ =>
    let baseId := lowerStr base
    let quoteId := lowerStr quote
    let symbolId := baseId ++ "_" ++ quoteId
    let id := baseId ++ quoteId
    let precision : Precision :=
      { amount := market.priceDecimals, price := market.amountDecimals }
    let parts := splitChar ' ' market.minAmount
    let cost := parts.headD ""
    let active := market.trading == "Enabled"
    some
      { id := id
        symbol := market.title
        base := base
        quote := quote
        baseId := baseId
        quoteId := quoteId
        symbolId := symbolId
        info := market
        active := active
        precision := precision
        limits :=
          { amount := { min := some (1 / (10 : Rat) ^ precision.amount), max := none }
            price := { min := some (1 / (10 : Rat) ^ precision.price), max := none }
            cost := { min := parseFloat cost, max := none } } }
  | _ => none

/-- `fetchMarkets` (`tokens.js` 169-217): build a canonical market from every
raw pair record, in order; a record whose title lacks a slash aborts the
whole call (encoded `none`). -/
def fetchMarkets (markets : List RawPair) : Option (List Market) :=
  markets.mapM buildMarket

/-- The single pair record of the catalog-refresh scenario. -/
def dppEth : RawPair :=
  { title := "DPP/ETH", priceDecimals := 4, amountDecimals := 8,
    minAmount := "0.001 ETH", trading := "Enabled" }

theorem fetchMarkets_singleton (r : RawPair) :
    fetchMarkets [r] = (buildMarket r).map (fun m => [m]) := by
  cases h : buildMarket r <;>
    simp [fetchMarkets, List.mapM, List.mapM.loop, h]

theorem buildMarket_of_split (r : RawPair) (b q : String)
    (h : splitChar '/' r.title = [b, q]) :
    buildMarket r = some
      { id := lowerStr b ++ lowerStr q
        symbol := r.title
        base := b
        quote := q
        baseId := lowerStr b
        quoteId := lowerStr q
        symbolId := lowerStr b ++ "_" ++ lowerStr q
        info := r
        active := r.trading == "Enabled"
        precision := { amount := r.priceDecimals, price := r.amountDecimals }
        limits :=
          { amount := { min := some (1 / (10 : Rat) ^ r.priceDecimals), max := none }
            price := { min := some (1 / (10 : Rat) ^ r.amountDecimals), max := none }
            cost := { min := parseFloat ((splitChar ' ' r.minAmount).headD ""),
                      max := none } } } := by
  simp [buildMarket, h]

theorem fetchMarkets_singleton_inv (r : RawPair) (m : Market)
    (h : fetchMarkets [r] = some [m]) : buildMarket r = some m := by
  rw [fetchMarkets_singleton] at h
  cases hb : buildMarket r <;> rw [hb] at h <;> simp_all

theorem buildMarket_spec (r : RawPair) (m : Market) (h : buildMarket r = some m) :
    m.precision = { amount := r.priceDecimals, price := r.amountDecimals } ∧
    m.limits.amount.min = some (1 / (10 : Rat) ^ r.priceDecimals) ∧
    m.limits.price.min = some (1 / (10 : Rat) ^ r.amountDecimals) := by
  unfold buildMarket at h
  split at h
  · injection h with h
    subst h
    exact ⟨rfl, rfl, rfl⟩
  · cases h

/-- `parseFloat` at the scenario's minimum-amount string. -/
theorem parseFloat_0001 : parseFloat "0.001" = some (1 / 1000 : Rat) := by
  have h : parseFloat "0.001" =
      some ((1 : Rat) * (((0 : Nat) : Rat) + ((1 : Nat) : Rat) / (10 : Rat) ^ (3 : Nat))) := rfl
  rw [h]
  norm_num

/-- The market that the catalog-refresh scenario builds from `dppEth`. -/
def dppEthMarket : Market :=
  { id := lowerStr "DPP" ++ lowerStr "ETH", symbol := dppEth.title,
    base := "DPP", quote := "ETH",
    baseId := lowerStr "DPP", quoteId := lowerStr "ETH",
    symbolId := lowerStr "DPP" ++ "_" ++ lowerStr "ETH", info := dppEth,
    active := dppEth.trading == "Enabled",
    precision := { amount := dppEth.priceDecimals, price := dppEth.amountDecimals },
    limits :=
      { amount := { min := some (1 / (10 : Rat) ^ dppEth.priceDecimals), max := none }
        price := { min := some (1 / (10 : Rat) ^ dppEth.amountDecimals), max := none }
        cost := { min := parseFloat ((splitChar ' ' dppEth.minAmount).headD ""),
                  max := none } } }

theorem fetchMarkets_dppEth : fetchMarkets [dppEth] = some [dppEthMarket] := by
  rw [fetchMarkets_singleton, buildMarket_of_split dppEth "DPP" "ETH" (by decide)]
  rfl

theorem dppEthMarket_cost : dppEthMarket.limits.cost.min = some (1 / 1000 : Rat) := by
  have h : (splitChar ' ' dppEth.minAmount).headD "" = "0.001" := by decide
  show parseFloat ((splitChar ' ' dppEth.minAmount).headD "") = some (1 / 1000 : Rat)
  rw [h, parseFloat_0001]

/-- C1: for every raw pair record whose title is of the form "BASE/QUOTE",
the market built by `fetchMarkets` has `id` = lowercase(BASE)+lowercase(QUOTE)
and `symbolId` = lowercase(BASE)+"_"+lowercase(QUOTE); and a catalog refresh
over the single DPP/ETH record yields a market with id "dppeth",
symbolId "dpp_eth", active = true and limits.cost.min = 0.001. -/
theorem C1_fetchMarkets_ids :
    (∀ (r : RawPair) (b q : String), splitChar '/' r.title = [b, q] →
      ∃ m : Market, fetchMarkets [r] = some [m] ∧
        m.id = lowerStr b ++ lowerStr q ∧
        m.symbolId = lowerStr b ++ "_" ++ lowerStr q) ∧
    (∃ m : Market, fetchMarkets [dppEth] = some [m] ∧
      m.id = "dppeth" ∧ m.symbolId = "dpp_eth" ∧ m.active = true ∧
      m.limits.cost.min = some (1 / 1000 : Rat)) := by
  constructor
  · intro r b q h
    rw [fetchMarkets_singleton, buildMarket_of_split r b q h]
    exact ⟨_, rfl, rfl, rfl⟩
  · exact ⟨dppEthMarket, fetchMarkets_dppEth, by decide, by decide, by decide,
      dppEthMarket_cost⟩

/-- C1 witness: the general part of C1 applied to the concrete DPP/ETH
record. -/
theorem C1_fetchMarkets_ids_witness :
    ∃ m : Market, fetchMarkets [dppEth] = some [m] ∧
      m.id = lowerStr "DPP" ++ lowerStr "ETH" ∧
      m.symbolId = lowerStr "DPP" ++ "_" ++ lowerStr "ETH" :=
  C1_fetchMarkets_ids.1 dppEth "DPP" "ETH" (by decide)

/-- C6: for every raw pair record, the market built by `fetchMarkets` has
`precision.amount` equal to the record's `priceDecimals` field and
`precision.price` equal to the record's `amountDecimals` field — the
price/amount decimal fields are swapped relative to their names. -/
theorem C6_precision_swapped :
    ∀ (r : RawPair) (m : Market), fetchMarkets [r] = some [m] →
      m.precision.amount = r.priceDecimals ∧
      m.precision.price = r.amountDecimals := by
  intro r m h
  rw [(buildMarket_spec r m (fetchMarkets_singleton_inv r m h)).1]
  exact ⟨rfl, rfl⟩

/-- C6 witness: the swap at the concrete DPP/ETH record. -/
theorem C6_precision_swapped_witness :
    dppEthMarket.precision.amount = dppEth.priceDecimals ∧
    dppEthMarket.precision.price = dppEth.amountDecimals :=
  C6_precision_swapped dppEth dppEthMarket fetchMarkets_dppEth

/-- C7: for every raw pair record, the market built by `fetchMarkets` has
`limits.amount.min = 10 ^ (-precision.amount)` exactly, and
`limits.price.min = 10 ^ (-precision.price)` exactly (JavaScript numbers
modelled as exact rationals). -/
theorem C7_limits_min_pow :
    ∀ (r : RawPair) (m : Market), fetchMarkets [r] = some [m] →
      m.limits.amount.min = some (1 / (10 : Rat) ^ m.precision.amount) ∧
      m.limits.price.min = some (1 / (10 : Rat) ^ m.precision.price) := by
  intro r m h
  obtain ⟨hp, ha, hpr⟩ := buildMarket_spec r m (fetchMarkets_singleton_inv r m h)
  rw [ha, hpr, hp]
  exact ⟨rfl, rfl⟩

/-- C7 witness: the smallest-increment limits at the concrete DPP/ETH
record. -/
theorem C7_limits_min_pow_witness :
    dppEthMarket.limits.amount.min =
      some (1 / (10 : Rat) ^ dppEthMarket.precision.amount) ∧
    dppEthMarket.limits.price.min =
      some (1 / (10 : Rat) ^ dppEthMarket.precision.price) :=
  C7_limits_min_pow dppEth dppEthMarket fetchMarkets_dppEth

/-- The `statuses` lookup table of `parseOrderStatus` (`tokens.js` 358-363). -/
def orderStatuses : List (String × String) :=
  [("open", "open"), ("filled", "closed"), ("canceled", "canceled"),
   ("expired", "canceled")]

/-- `parseOrderStatus` (`tokens.js` 357-365): map a raw exchange status
through the fixed table; an unmapped status is returned unchanged. -/
def parseOrderStatus (status : String) : String :=
  (orderStatuses.lookup status).getD status

/-- C4: `parseOrderStatus` maps via the fixed table (open maps to open, filled
to closed, canceled to canceled, expired to canceled) and returns any status
outside the table unchanged. -/
theorem C4_parseOrderStatus :
    parseOrderStatus "open" = "open" ∧
    parseOrderStatus "filled" = "closed" ∧
    parseOrderStatus "canceled" = "canceled" ∧
    parseOrderStatus "expired" = "canceled" ∧
    parseOrderStatus "weird_unknown_status" = "weird_unknown_status" ∧
    (∀ s : String, s ∉ ["open", "filled", "canceled", "expired"] →
      parseOrderStatus s = s) := by
  refine ⟨by decide, by decide, by decide, by decide, by decide, ?_⟩
  intro s h
  simp only [List.mem_cons, List.mem_singleton, not_or] at h
  obtain ⟨h1, h2, h3, h4, -⟩ := h
  have e1 : (s == "open") = false := beq_eq_false_iff_ne.mpr h1
  have e2 : (s == "filled") = false := beq_eq_false_iff_ne.mpr h2
  have e3 : (s == "canceled") = false := beq_eq_false_iff_ne.mpr h3
  have e4 : (s == "expired") = false := beq_eq_false_iff_ne.mpr h4
  simp [parseOrderStatus, orderStatuses, List.lookup, e1, e2, e3, e4]

/-- C4 witness: the pass-through branch at a concrete unmapped status. -/
theorem C4_parseOrderStatus_witness :
    parseOrderStatus "weird_unknown_status" = "weird_unknown_status" :=
  C4_parseOrderStatus.2.2.2.2.2 "weird_unknown_status" (by decide)

/-- The exception classes this connector can raise; the four classes of the
`exceptions` code table (`tokens.js` 129-142, imported from the base error
hierarchy) plus the generic `ExchangeError` fallback. -/
inductive ErrClass where
  | argumentsRequired
  | invalidNonce
  | badRequest
  | ddosProtection
deriving Repr, DecidableEq

/-- A raised error: a typed class carrying the response's `reason` string, or
the generic `ExchangeError` fallback with the reason string.  An absent
`reason` field is `none`. -/
inductive TokensError where
  | raised (cls : ErrClass) (reason : Option String)
  | exchangeError (reason : Option String)
deriving Repr, DecidableEq

/-- The `exceptions` code table of `describe` (`tokens.js` 129-142): error
code to exception class. -/
def exceptions : List (String × ErrClass) :=
  [("100", .argumentsRequired), ("101", .argumentsRequired),
   ("102", .argumentsRequired),
   ("110", .invalidNonce), ("111", .invalidNonce),
   ("120", .badRequest), ("121", .badRequest), ("130", .badRequest),
   ("140", .badRequest), ("150", .badRequest), ("160", .badRequest),
   ("429", .ddosProtection)]

/-- The pre-parsed JSON response as `handleErrors` reads it: the three fields
the classifier consults; a field the JSON lacks is `none`. -/
structure ParsedResponse where
  errorCode : Option String
  status : Option String
  reason : Option String
deriving Repr, DecidableEq

/-- `handleErrors` (`tokens.js` 476-492): returns the error the classifier
raises, or `none` when it raises nothing.  The body is only inspected when
it is at least two characters long and starts with a brace or a bracket. -/
def handleErrors (body : String) (response : ParsedResponse) : Option TokensError :=
  if body.length < 2 then none
  else if body.data.headD ' ' = '\x7b' ∨ body.data.headD ' ' = '[' then
    match response.errorCode.bind (fun c => exceptions.lookup c) with
    | some cls => some (.raised cls response.reason)
    | none =>
      if response.status = some "error" then some (.exchangeError response.reason)
      else none
  else none

/-- C2: `handleErrors` raises the table's typed error (with the response's
reason) exactly when the body looks like JSON and the errorCode is in the
fixed code table; else the generic exchange error exactly when
status = "error"; else nothing — never on well-formed non-error JSON, and
never on short or non-JSON bodies.  The body `\x7b"errorCode":"110",
"reason":"bad nonce"\x7d` raises InvalidNonce with reason "bad nonce". -/
theorem C2_handleErrors :
    (∀ (body : String) (resp : ParsedResponse) (c : String) (cls : ErrClass),
      2 ≤ body.length → (body.data.headD ' ' = '\x7b' ∨ body.data.headD ' ' = '[') →
      resp.errorCode = some c → exceptions.lookup c = some cls →
      handleErrors body resp = some (.raised cls resp.reason)) ∧
    handleErrors "\x7b\"errorCode\":\"110\",\"reason\":\"bad nonce\"\x7d"
      { errorCode := some "110", status := none, reason := some "bad nonce" } =
      some (.raised .invalidNonce (some "bad nonce")) ∧
    (∀ (body : String) (resp : ParsedResponse),
      2 ≤ body.length → (body.data.headD ' ' = '\x7b' ∨ body.data.headD ' ' = '[') →
      resp.errorCode.bind (fun c => exceptions.lookup c) = none →
      resp.status = some "error" →
      handleErrors body resp = some (.exchangeError resp.reason)) ∧
    (∀ (body : String) (resp : ParsedResponse),
      resp.errorCode.bind (fun c => exceptions.lookup c) = none →
      resp.status ≠ some "error" →
      handleErrors body resp = none) ∧
    (∀ (body : String) (resp : ParsedResponse),
      body.length < 2 ∨ (body.data.headD ' ' ≠ '\x7b' ∧ body.data.headD ' ' ≠ '[') →
      handleErrors body resp = none) := by
  refine ⟨?_, by decide, ?_, ?_, ?_⟩
  · intro body resp c cls hlen hjson hcode hcls
    unfold handleErrors
    rw [if_neg (by omega), if_pos hjson, hcode]
    simp [hcls]
  · intro body resp hlen hjson hnone hstat
    unfold handleErrors
    rw [if_neg (by omega), if_pos hjson, hnone]
    simp [hstat]
  · intro body resp hnone hstat
    by_cases h1 : body.length < 2
    · simp [handleErrors, h1]
    · by_cases h2 : body.data.headD ' ' = '\x7b' ∨ body.data.headD ' ' = '['
      · simp [handleErrors, h1, h2, hnone, hstat]
      · rw [List.headD_eq_head?_getD] at h2
        simp [handleErrors, h1, h2]
  · intro body resp h
    rcases h with h | ⟨ha, hb⟩
    · simp [handleErrors, h]
    · have hj : ¬(body.data.headD ' ' = '\x7b' ∨ body.data.headD ' ' = '[') := by
        tauto
      rw [List.headD_eq_head?_getD] at hj
      simp [handleErrors, hj]

/-- C2 witness: the typed-dispatch branch at the concrete InvalidNonce
response. -/
theorem C2_handleErrors_witness :
    handleErrors "\x7b\"errorCode\":\"110\",\"reason\":\"bad nonce\"\x7d"
      { errorCode := some "110", status := none, reason := some "bad nonce" } =
      some (.raised .invalidNonce (some "bad nonce")) :=
  C2_handleErrors.1 "\x7b\"errorCode\":\"110\",\"reason\":\"bad nonce\"\x7d"
    { errorCode := some "110", status := none, reason := some "bad nonce" }
    "110" .invalidNonce (by decide) (by decide) rfl (by decide)

/-- A raw ticker payload as `fetchTicker` reads it (`tokens.js` 231-265):
the numeric fields extracted with `safeFloat` (absent or non-numeric is
`none`), and the epoch-seconds timestamp, which arrives as a decimal string
and is modelled as the integer `parseInt` yields on it. -/
structure RawTicker where
  timestamp : Int
  vwap : Option Rat
  volume : Option Rat
  last : Option Rat
  high : Option Rat
  low : Option Rat
  bid : Option Rat
  ask : Option Rat
  openPrice : Option Rat
deriving Repr, DecidableEq

/-- A normalized ticker (`tokens.js` 243-264).  The raw `open` field is
`openPrice` here because `open` is reserved in Lean. -/
structure Ticker where
  symbol : String
  timestamp : Int
  high : Option Rat
  low : Option Rat
  bid : Option Rat
  bidVolume : Option Rat
  ask : Option Rat
  askVolume : Option Rat
  vwap : Option Rat
  openPrice : Option Rat
  close : Option Rat
  last : Option Rat
  previousClose : Option Rat
  change : Option Rat
  percentage : Option Rat
  average : Option Rat
  baseVolume : Option Rat
  quoteVolume : Option Rat
  info : RawTicker
deriving Repr, DecidableEq

/-- The response-normalization part of `fetchTicker` (`tokens.js` 231-265):
epoch seconds scaled to milliseconds, `quoteVolume = baseVolume * vwap` only
when both operands are present, every other numeric field passed through
defensively. -/
def fetchTicker (symbol : String) (ticker : RawTicker) : Ticker :=
  let timestamp := ticker.timestamp * 1000
  let vwap := ticker.vwap
  let baseVolume := ticker.volume
  let quoteVolume :=
    match baseVolume, vwap with
    | some b, some v => some (b * v)
    | _, _ => none
  let last := ticker.last
  { symbol := symbol
    timestamp := timestamp
    high := ticker.high
    low := ticker.low
    bid := ticker.bid
    bidVolume := none
    ask := ticker.ask
    askVolume := none
    vwap := vwap
    openPrice := ticker.openPrice
    close := last
    last := last
    previousClose := none
    change := none
    percentage := none
    average := none
    baseVolume := baseVolume
    quoteVolume := quoteVolume
    info := ticker }

/-- C9: the normalized ticker has `quoteVolume = baseVolume * vwap` when both
are present, and `quoteVolume = none` when either is absent (no zero
substitution); `baseVolume = 10` with `vwap = 2` yields `quoteVolume = 20`,
and an absent `vwap` yields `quoteVolume = none`. -/
theorem C9_fetchTicker_quoteVolume :
    (∀ (sym : String) (t : RawTicker) (b v : Rat),
      t.volume = some b → t.vwap = some v →
      (fetchTicker sym t).quoteVolume = some (b * v)) ∧
    (∀ (sym : String) (t : RawTicker),
      t.volume = none ∨ t.vwap = none →
      (fetchTicker sym t).quoteVolume = none) ∧
    (∀ (sym : String) (t : RawTicker),
      t.volume = some 10 → t.vwap = some 2 →
      (fetchTicker sym t).quoteVolume = some 20) ∧
    (∀ (sym : String) (t : RawTicker),
      t.vwap = none → (fetchTicker sym t).quoteVolume = none) := by
  refine ⟨?_, ?_, ?_, ?_⟩
  · intro sym t b v hb hv
    simp [fetchTicker, hb, hv]
  · intro sym t h
    rcases h with h | h
    · simp [fetchTicker, h]
    · cases hv : t.volume <;> simp [fetchTicker, h, hv]
  · intro sym t hb hv
    norm_num [fetchTicker, hb, hv]
  · intro sym t h
    cases hv : t.volume <;> simp [fetchTicker, h, hv]

/-- C9 witness: both branches at concrete tickers. -/
theorem C9_fetchTicker_quoteVolume_witness :
    (fetchTicker "DPP/ETH"
      { timestamp := 0, vwap := some 2, volume := some 10, last := none,
        high := none, low := none, bid := none, ask := none,
        openPrice := none }).quoteVolume = some 20 ∧
    (fetchTicker "DPP/ETH"
      { timestamp := 0, vwap := none, volume := some 10, last := none,
        high := none, low := none, bid := none, ask := none,
        openPrice := none }).quoteVolume = none :=
  ⟨C9_fetchTicker_quoteVolume.2.2.1 "DPP/ETH" _ rfl rfl,
   C9_fetchTicker_quoteVolume.2.2.2 "DPP/ETH" _ rfl⟩

/-- A raw trade object as `parseTrade` reads it (`tokens.js` 318-341).  The
exchange embeds extra per-pair numeric fields directly in the payload under
pair-specific keys (the market's `symbolId`/`baseId`/`quoteId`); those
dynamically-named fields are the `pairFields` association list.  `datetime`
arrives as a decimal string and is modelled as the integer `parseInt` yields
on it. -/
structure RawTrade where
  type : Option String
  price : Option Rat
  amount : Option Rat
  tid : Option String
  id : Option String
  datetime : Int
  cost : Option Rat
  pairFields : List (String × Rat)
deriving Repr, DecidableEq

/-- A normalized trade (`tokens.js` 342-354).  The result's `datetime`
string (`iso8601`) is a pure base-framework formatter of `timestamp` and is
not modelled. -/
structure Trade where
  amount : Option Rat
  id : Option String
  info : RawTrade
  order : Option String
  price : Option Rat
  timestamp : Int
  type : Option String
  side : Option String
  symbol : Option String
  cost : Option Rat
deriving Repr, DecidableEq

/-- `safeFloat (trade, key, default)` on the dynamically-named pair fields:
the field's numeric value when the key is present, else the default. -/
def safeFloatKey (trade : RawTrade) (key : String) (dflt : Option Rat) : Option Rat :=
  match trade.pairFields.lookup key with
  | some v => some v
  | none => dflt

/-- `parseTrade` (`tokens.js` 318-355): price/amount/cost default from the
generic fields but are overridden by the market-keyed fields when a market
context is supplied; an absent cost is computed as `price * amount`; a
present cost is replaced by its absolute value. -/
def parseTrade (trade : RawTrade) (market : Option Market) : Trade :=
  let side := trade.type
  let id := trade.tid.or trade.id
  let timestamp := trade.datetime * 1000
  let (price, amount, cost, symbol) :=
    match market with
    | some m =>
      (safeFloatKey trade m.symbolId trade.price,
       safeFloatKey trade m.baseId trade.amount,
       safeFloatKey trade m.quoteId trade.cost,
       some m.symbol)
    | none => (trade.price, trade.amount, trade.cost, none)
  let cost :=
    match cost, price, amount with
    | none, some p, some a => some (p * a)
    | none, _, _ => none
    | some c, _, _ => some c
  let cost := cost.map (fun c => |c|)
  { amount := amount
    id := id
    info := trade
    order := none
    price := price
    timestamp := timestamp
    type := none
    side := side
    symbol := symbol
    cost := cost }

/-- The `fee` object of a normalized order (`tokens.js` 387-390). -/
structure Fee where
  cost : Option Rat
  currency : Option String
deriving Repr, DecidableEq

/-- A raw order payload as `parseOrder` reads it (`tokens.js` 367-394).
`created` arrives as epoch seconds. -/
structure RawOrder where
  currencyPair : String
  orderStatus : Option String
  id : Option String
  type : Option String
  created : Int
  amount : Option Rat
  price : Option Rat
  remainingAmount : Option Rat
  trades : List RawTrade
deriving Repr, DecidableEq

/-- A normalized order (`tokens.js` 395-412).  `timestamp` is a string in
the source — `(order.created * 1000).toString ()` — and stays a string
here.  `status` is `none` when the raw payload has no `orderStatus` (the
undefined status passes through `parseOrderStatus` unchanged). -/
structure Order where
  id : Option String
  timestamp : String
  lastTradeTimestamp : Option Int
  status : Option String
  symbol : Option String
  type : String
  side : Option String
  price : Option Rat
  cost : Option Rat
  amount : Option Rat
  filled : Option Rat
  remaining : Option Rat
  trades : List Trade
  fee : Fee
  info : RawOrder
deriving Repr, DecidableEq

/-- JavaScript subtraction on possibly-undefined numbers: an undefined
operand yields NaN, encoded — like undefined — as `none`. -/
def optSub (a b : Option Rat) : Option Rat :=
  match a, b with
  | some x, some y => some (x - y)
  | _, _ => none

/-- JavaScript multiplication on possibly-undefined numbers: an undefined
operand yields NaN, encoded — like undefined — as `none`. -/
def optMul (a b : Option Rat) : Option Rat :=
  match a, b with
  | some x, some y => some (x * y)
  | _, _ => none

/-- `parseOrder` (`tokens.js` 367-413).  The first statement overwrites the
passed `market` argument with a reverse lookup of the raw order's
`currencyPair` in `markets_by_id` (modelled as an association list from
exchange-native pair id to market).  `filled = amount - remainingAmount`,
`cost = price * filled`, `fee.cost` is never set, `fee.currency` is the
resolved market's quote currency. -/
def parseOrder (marketsById : List (String × Market)) (order : RawOrder)
    (market : Option Market := none) : Order :=
  let market := marketsById.lookup order.currencyPair
  let status := order.orderStatus.map parseOrderStatus
  let id := order.id
  let side := order.type
  let timestamp := toString (order.created * 1000)
  let (symbol, feeCurrency) :=
    match market with
    | some m => (some m.symbol, some m.quote)
    | none => (none, none)
  let amount := order.amount
  let price := order.price
  let remaining := order.remainingAmount
  let filled := optSub amount remaining
  let cost := optMul price filled
  let fee : Fee := { cost := none, currency := feeCurrency }
  let trades := order.trades.map (fun t => parseTrade t market)
  { id := id
    timestamp := timestamp
    lastTradeTimestamp := none
    status := status
    symbol := symbol
    type := "limit"
    side := side
    price := price
    cost := cost
    amount := amount
    filled := filled
    remaining := remaining
    trades := trades
    fee := fee
    info := order }

/-- C3: for every raw order payload with numeric amount A, remainingAmount R
and price P, `parseOrder` produces `filled = A - R` and
`cost = P * (A - R)`, exactly. -/
theorem C3_parseOrder_filled_cost :
    ∀ (marketsById : List (String × Market)) (order : RawOrder)
      (market : Option Market) (A R P : Rat),
      order.amount = some A → order.remainingAmount = some R →
      order.price = some P →
      (parseOrder marketsById order market).filled = some (A - R) ∧
      (parseOrder marketsById order market).cost = some (P * (A - R)) := by
  intro marketsById order market A R P hA hR hP
  constructor <;> simp [parseOrder, optSub, optMul, hA, hR, hP]

/-- A concrete raw order: amount 5, remainingAmount 2, price 3. -/
def sampleOrder : RawOrder :=
  { currencyPair := "dppeth", orderStatus := none, id := none, type := none,
    created := 0, amount := some 5, price := some 3,
    remainingAmount := some 2, trades := [] }

/-- C3 witness: the filled/cost derivation at `sampleOrder`. -/
theorem C3_parseOrder_filled_cost_witness :
    (parseOrder [] sampleOrder none).filled = some (5 - 2 : Rat) ∧
    (parseOrder [] sampleOrder none).cost = some (3 * (5 - 2) : Rat) :=
  C3_parseOrder_filled_cost [] sampleOrder none 5 2 3 rfl rfl rfl

/-- C10: `parseOrder` resolves the market by reverse lookup of the raw
order's `currencyPair` against the by-id index; the explicitly passed market
argument has no effect on the result; `fee.cost` is always unset and
`fee.currency` is the resolved market's quote currency (`none` when the
lookup resolves no market). -/
theorem C10_parseOrder_market_resolution :
    ∀ (marketsById : List (String × Market)) (order : RawOrder)
      (m₁ m₂ : Option Market),
      parseOrder marketsById order m₁ = parseOrder marketsById order m₂ ∧
      (parseOrder marketsById order m₁).fee.cost = none ∧
      (parseOrder marketsById order m₁).fee.currency =
        (marketsById.lookup order.currencyPair).map Market.quote := by
  intro marketsById order m₁ m₂
  refine ⟨rfl, rfl, ?_⟩
  cases h : marketsById.lookup order.currencyPair <;> simp [parseOrder, h]

/-- The signed-request headers `sign` builds (`tokens.js` 159-164). -/
structure Headers where
  key : String
  signature : String
  nonce : String
  contentType : String
deriving Repr, DecidableEq

/-- The request descriptor `sign` returns (`tokens.js` 166). -/
structure SignResult where
  url : String
  method : String
  body : Option String
  headers : Option Headers
deriving Repr, DecidableEq

/-- The error `sign` raises locally, before any network call. -/
inductive SignError where
  | credentialsRequired
deriving Repr, DecidableEq

/-- Modelled from the spec: the base-framework collaborators `sign` calls
live outside this fragment (§4.1, §6) and are abstract here — `hmac`
(message, then secret key), `urlencode`, and the `implodeParams` /
`extractParams` path templating.  `encode` is the identity on strings in
this model. -/
structure BaseCollab where
  hmac : String → String → String
  urlencode : List (String × String) → String
  implodeParams : String → List (String × String) → String
  extractParams : String → List String

/-- The connector's API base url (`tokens.js` 57). -/
def apiUrl : String := "https://api.tokens.net/"

/-- `sign` (`tokens.js` 146-167).  Public requests pass `body` and `headers`
through untouched.  Private requests first check that both credentials are
present (`checkRequiredCredentials`, modelled from the spec: fails locally
when either is absent, before any network call), then build the signed
headers from the clock-supplied nonce (epoch milliseconds, here the
argument `nonceMs`). -/
def sign (B : BaseCollab) (apiKey secret : Option String) (nonceMs : Nat)
    (path : String) (api : String := "public") (method : String := "GET")
    (params : List (String × String) := []) (headers : Option Headers := none)
    (body : Option String := none) : Except SignError SignResult :=
  let url := apiUrl ++ B.implodeParams path params
  let query := params.filter (fun kv => !(B.extractParams path).contains kv.1)
  if api = "public" then
    let url := if query.length ≠ 0 then url ++ "?" ++ B.urlencode query else url
    .ok { url := url, method := method, body := body, headers := headers }
  else
    match apiKey, secret with
    | some key, some sec =>
      let nonce := toString nonceMs
      let auth := nonce ++ key
      let signature := (B.hmac auth sec).toUpper
      .ok { url := url, method := method, body := some (B.urlencode query),
            headers := some { key := key, signature := signature,
                              nonce := nonce,
                              contentType := "application/x-www-form-urlencoded" } }
    | _, _ => .error .credentialsRequired

/-- C5: a private request with a missing credential fails locally; a private
request with both credentials present carries headers
key = apiKey, signature = uppercase(hmac(secret, nonce-string ++ apiKey)),
nonce = nonce-string, contentType = urlencoded, and a urlencoded body;
a public request passes headers and body through untouched. -/
theorem C5_sign :
    ∀ (B : BaseCollab) (n : Nat) (path method : String)
      (params : List (String × String)) (h₀ : Option Headers)
      (b₀ : Option String),
      (∀ apiKey secret : Option String, apiKey = none ∨ secret = none →
        sign B apiKey secret n path "private" method params h₀ b₀ =
          .error .credentialsRequired) ∧
      (∀ key sec : String,
        sign B (some key) (some sec) n path "private" method params h₀ b₀ =
          .ok { url := apiUrl ++ B.implodeParams path params
                method := method
                body := some (B.urlencode (params.filter
                  (fun kv => !(B.extractParams path).contains kv.1)))
                headers := some
                  { key := key
                    signature := (B.hmac (toString n ++ key) sec).toUpper
                    nonce := toString n
                    contentType := "application/x-www-form-urlencoded" } }) ∧
      (∀ apiKey secret : Option String,
        ∃ url, sign B apiKey secret n path "public" method params h₀ b₀ =
          .ok { url := url, method := method, body := b₀, headers := h₀ }) := by
  intro B n path method params h₀ b₀
  refine ⟨?_, ?_, ?_⟩
  · intro apiKey secret h
    rcases h with h | h
    · subst h
      cases secret <;> simp [sign]
    · subst h
      cases apiKey <;> simp [sign]
  · intro key sec
    simp [sign]
  · intro apiKey secret
    refine ⟨if (params.filter
        (fun kv => !(B.extractParams path).contains kv.1)).length ≠ 0 then
          apiUrl ++ B.implodeParams path params ++ "?" ++ B.urlencode
            (params.filter (fun kv => !(B.extractParams path).contains kv.1))
        else apiUrl ++ B.implodeParams path params, ?_⟩
    rfl

/-- C5 witness: the local credentials failure and the signed headers at a
concrete collaborator instance. -/
theorem C5_sign_witness :
    sign { hmac := fun a b => a ++ b, urlencode := fun _ => "",
           implodeParams := fun p _ => p, extractParams := fun _ => [] }
        none none 7 "private/balance/eth/" "private" "GET" [] none none =
      .error .credentialsRequired :=
  (C5_sign { hmac := fun a b => a ++ b, urlencode := fun _ => "",
             implodeParams := fun p _ => p, extractParams := fun _ => [] }
    7 "private/balance/eth/" "GET" [] none none).1 none none (Or.inl rfl)

/-- The ascending-timestamp comparison `sortBy` uses. -/
def tradeLE (a b : Trade) : Bool :=
  decide (a.timestamp ≤ b.timestamp)

/-- Modelled from the spec: the base framework's `sortBy` on the `timestamp`
field (§4.3) — a stable ascending sort, a stable merge sort here. -/
def sortByTimestamp (l : List Trade) : List Trade :=
  l.mergeSort tradeLE

/-- Keep only the trades of the requested symbol, when one is given
(first stage of `filterBySymbolSinceLimit`, modelled from the spec §4.3). -/
def filterBySymbol (l : List Trade) (symbol : Option String) : List Trade :=
  match symbol with
  | some s => l.filter (fun t => t.symbol == some s)
  | none => l

/-- Keep only the trades with `timestamp ≥ since`, when `since` is given
(second stage of `filterBySymbolSinceLimit`, modelled from the spec §4.3). -/
def filterSince (l : List Trade) (since : Option Int) : List Trade :=
  match since with
  | some sc => l.filter (fun t => decide (sc ≤ t.timestamp))
  | none => l

/-- Truncate to at most `limit` entries, when a limit is given (last stage
of `filterBySymbolSinceLimit`, modelled from the spec §4.3). -/
def takeLimit (l : List Trade) (limit : Option Nat) : List Trade :=
  match limit with
  | some n => l.take n
  | none => l

/-- Modelled from the spec: the base framework's `filterBySymbolSinceLimit`
(§4.3) — keep entries matching the requested symbol (if given), with
timestamp ≥ `since` (if given), truncated to at most `limit` entries (if
given), preserving order. -/
def filterBySymbolSinceLimit (l : List Trade) (symbol : Option String)
    (since : Option Int) (limit : Option Nat) : List Trade :=
  takeLimit (filterSince (filterBySymbol l symbol) since) limit

/-- The raw trades response object; `parseTrades` reads its `trades`
array. -/
structure TradesResponse where
  trades : List RawTrade
deriving Repr, DecidableEq

/-- The post-parse normalization stage of `parseTrades`: stable ascending
sort by timestamp, then symbol/since/limit filtering. -/
def normalizeTrades (l : List Trade) (symbol : Option String)
    (since : Option Int) (limit : Option Nat) : List Trade :=
  filterBySymbolSinceLimit (sortByTimestamp l) symbol since limit

/-- `parseTrades` (`tokens.js` 271-279), parametrized by the per-trade
parser so that the empty-list short-circuit can be stated independently of
it. -/
def parseTradesWith (f : RawTrade → Trade) (response : TradesResponse)
    (market : Option Market) (since : Option Int) (limit : Option Nat) :
    List Trade :=
  if response.trades.length = 0 then []
  else normalizeTrades (response.trades.map f) (market.map Market.symbol)
    since limit

/-- `parseTrades` (`tokens.js` 271-279): short-circuit on an empty raw
list; otherwise parse every raw trade, sort ascending by timestamp, then
apply symbol/since/limit filtering. -/
def parseTrades (response : TradesResponse) (market : Option Market)
    (since : Option Int) (limit : Option Nat) : List Trade :=
  parseTradesWith (fun t => parseTrade t market) response market since limit

theorem tradeLE_trans : ∀ a b c : Trade,
    tradeLE a b = true → tradeLE b c = true → tradeLE a c = true := by
  intro a b c
  simp only [tradeLE, decide_eq_true_eq]
  omega

theorem tradeLE_total : ∀ a b : Trade, (tradeLE a b || tradeLE b a) = true := by
  intro a b
  simp only [tradeLE, Bool.or_eq_true, decide_eq_true_eq]
  omega

theorem mem_filterBySymbol (l : List Trade) (s : Option String) (a : Trade)
    (h : a ∈ filterBySymbol l s) : a ∈ l := by
  cases s
  · exact h
  · exact (List.mem_filter.mp h).1

theorem mem_filterSince (l : List Trade) (sc : Option Int) (a : Trade)
    (h : a ∈ filterSince l sc) : a ∈ l := by
  cases sc
  · exact h
  · exact (List.mem_filter.mp h).1

theorem mem_takeLimit (l : List Trade) (lim : Option Nat) (a : Trade)
    (h : a ∈ takeLimit l lim) : a ∈ l := by
  cases lim
  · exact h
  · exact List.mem_of_mem_take h

theorem filterBySymbol_prop (l : List Trade) (s : String) (a : Trade)
    (h : a ∈ filterBySymbol l (some s)) : (a.symbol == some s) = true :=
  (List.mem_filter.mp h).2

theorem filterSince_prop (l : List Trade) (sc : Int) (a : Trade)
    (h : a ∈ filterSince l (some sc)) : decide (sc ≤ a.timestamp) = true :=
  (List.mem_filter.mp h).2

theorem filterBySymbol_eq_self (l : List Trade) (s : Option String)
    (h : ∀ a ∈ l, ∀ str, s = some str → (a.symbol == some str) = true) :
    filterBySymbol l s = l := by
  cases s
  · rfl
  · exact List.filter_eq_self.mpr (fun a ha => h a ha _ rfl)

theorem filterSince_eq_self (l : List Trade) (sc : Option Int)
    (h : ∀ a ∈ l, ∀ v, sc = some v → decide (v ≤ a.timestamp) = true) :
    filterSince l sc = l := by
  cases sc
  · rfl
  · exact List.filter_eq_self.mpr (fun a ha => h a ha _ rfl)

theorem takeLimit_eq_self (l : List Trade) (lim : Option Nat)
    (h : ∀ n, lim = some n → l.length ≤ n) : takeLimit l lim = l := by
  cases lim
  · rfl
  · exact List.take_of_length_le (h _ rfl)

theorem takeLimit_length (l : List Trade) (n : Nat) :
    (takeLimit l (some n)).length ≤ n := by
  simp [takeLimit]

theorem filterBySymbolSinceLimit_sublist (l : List Trade) (s : Option String)
    (sc : Option Int) (lim : Option Nat) :
    (filterBySymbolSinceLimit l s sc lim).Sublist l := by
  have h1 : (filterBySymbol l s).Sublist l := by
    cases s
    · exact List.Sublist.refl l
    · exact List.filter_sublist l
  have h2 : (filterSince (filterBySymbol l s) sc).Sublist (filterBySymbol l s) := by
    cases sc
    · exact List.Sublist.refl _
    · exact List.filter_sublist _
  have h3 : (takeLimit (filterSince (filterBySymbol l s) sc) lim).Sublist
      (filterSince (filterBySymbol l s) sc) := by
    cases lim
    · exact List.Sublist.refl _
    · exact List.take_sublist _ _
  exact (h3.trans h2).trans h1

theorem filterBySymbolSinceLimit_self (x : List Trade) (s : Option String)
    (sc : Option Int) (lim : Option Nat) :
    filterBySymbolSinceLimit (filterBySymbolSinceLimit x s sc lim) s sc lim =
      filterBySymbolSinceLimit x s sc lim := by
  set y := filterBySymbolSinceLimit x s sc lim with hy
  have hsym : filterBySymbol y s = y := by
    apply filterBySymbol_eq_self
    intro a ha str hstr
    subst hstr
    have h1 : a ∈ filterSince (filterBySymbol x (some str)) sc :=
      mem_takeLimit _ _ _ ha
    have h2 : a ∈ filterBySymbol x (some str) := mem_filterSince _ _ _ h1
    exact filterBySymbol_prop _ _ _ h2
  have hsince : filterSince (filterBySymbol y s) sc = y := by
    rw [hsym]
    apply filterSince_eq_self
    intro a ha v hv
    subst hv
    have h1 : a ∈ filterSince (filterBySymbol x s) (some v) :=
      mem_takeLimit _ _ _ ha
    exact filterSince_prop _ _ _ h1
  show takeLimit (filterSince (filterBySymbol y s) sc) lim = y
  rw [hsince]
  apply takeLimit_eq_self
  intro n hn
  subst hn
  exact takeLimit_length _ n

theorem normalizeTrades_sorted (l : List Trade) (s : Option String)
    (sc : Option Int) (lim : Option Nat) :
    (normalizeTrades l s sc lim).Pairwise (fun a b => tradeLE a b = true) :=
  List.Pairwise.sublist (filterBySymbolSinceLimit_sublist _ _ _ _)
    (List.sorted_mergeSort tradeLE_trans tradeLE_total l)

/-- C8: re-normalizing the (already sorted, already filtered) output of the
trade-list normalization stage with the same symbol/since/limit returns it
unchanged; and `parseTrades` on an empty raw trade list returns the empty
sequence whatever the per-trade parser is (so without invoking it). -/
theorem C8_parseTrades_idem :
    (∀ (l : List Trade) (s : Option String) (sc : Option Int)
      (lim : Option Nat),
      normalizeTrades (normalizeTrades l s sc lim) s sc lim =
        normalizeTrades l s sc lim) ∧
    (∀ (f : RawTrade → Trade) (market : Option Market) (since : Option Int)
      (limit : Option Nat),
      parseTradesWith f { trades := [] } market since limit = []) := by
  constructor
  · intro l s sc lim
    show filterBySymbolSinceLimit (sortByTimestamp (normalizeTrades l s sc lim))
        s sc lim = normalizeTrades l s sc lim
    rw [show sortByTimestamp (normalizeTrades l s sc lim) =
        normalizeTrades l s sc lim from
      List.mergeSort_of_sorted (normalizeTrades_sorted l s sc lim)]
    exact filterBySymbolSinceLimit_self _ s sc lim
  · intro f market since limit
    rfl

end Tokens
